import Mathlib

/-!
Verification development for the boids flocking simulation
(`src/app.rs`, `src/boid.rs`, `src/boids_simulation.rs`).

The engine's `f32` arithmetic is modelled over the reals.  `egui::Vec2`
and `egui::Pos2` are both a pair of `f32`; `Pos2 - Pos2` yields a `Vec2`
and `Pos2::to_vec2` is the identity on components, so a single `Vec2`
type serves for both.
-/

/-- 2D vector over the reals, modelling `egui::Vec2` and `egui::Pos2`. -/
@[ext]
structure Vec2 where
  x : ℝ
  y : ℝ

/-- `Vec2::ZERO`. -/
noncomputable def Vec2.zero : Vec2 := ⟨0, 0⟩

noncomputable instance : Add Vec2 := ⟨fun a b => ⟨a.x + b.x, a.y + b.y⟩⟩

noncomputable instance : Sub Vec2 := ⟨fun a b => ⟨a.x - b.x, a.y - b.y⟩⟩

/-- `v * c` (componentwise scaling by a scalar, as in `vec * scalar` in egui). -/
noncomputable def Vec2.smul (v : Vec2) (c : ℝ) : Vec2 := ⟨v.x * c, v.y * c⟩

/-- `v / c` (componentwise division by a scalar, as in `vec / scalar` in egui). -/
noncomputable def Vec2.divScalar (v : Vec2) (c : ℝ) : Vec2 := ⟨v.x / c, v.y / c⟩

@[simp] theorem Vec2.add_x (a b : Vec2) : (a + b).x = a.x + b.x := rfl

@[simp] theorem Vec2.add_y (a b : Vec2) : (a + b).y = a.y + b.y := rfl

@[simp] theorem Vec2.sub_x (a b : Vec2) : (a - b).x = a.x - b.x := rfl

@[simp] theorem Vec2.sub_y (a b : Vec2) : (a - b).y = a.y - b.y := rfl

@[simp] theorem Vec2.smul_x (v : Vec2) (c : ℝ) : (v.smul c).x = v.x * c := rfl

@[simp] theorem Vec2.smul_y (v : Vec2) (c : ℝ) : (v.smul c).y = v.y * c := rfl

@[simp] theorem Vec2.divScalar_x (v : Vec2) (c : ℝ) : (v.divScalar c).x = v.x / c := rfl

@[simp] theorem Vec2.divScalar_y (v : Vec2) (c : ℝ) : (v.divScalar c).y = v.y / c := rfl

@[simp] theorem Vec2.zero_x : Vec2.zero.x = 0 := rfl

@[simp] theorem Vec2.zero_y : Vec2.zero.y = 0 := rfl

/-- `Vec2::length_sq`: `x*x + y*y`. -/
noncomputable def Vec2.lengthSq (v : Vec2) : ℝ := v.x ^ 2 + v.y ^ 2

/-- `Vec2::length`: `sqrt (x*x + y*y)`. -/
noncomputable def Vec2.length (v : Vec2) : ℝ := Real.sqrt (v.x ^ 2 + v.y ^ 2)

/-- `Vec2::normalized` of the egui vector library (an external collaborator of
the engine): returns the input unchanged when its length is not positive,
otherwise divides by the length.  In particular a zero-length vector
normalizes to the zero vector, never to NaN. -/
noncomputable def Vec2.normalized (v : Vec2) : Vec2 :=
  if v.length ≤ 0 then v else v.divScalar v.length

theorem Vec2.length_nonneg (v : Vec2) : 0 ≤ v.length := Real.sqrt_nonneg _

theorem Vec2.lengthSq_nonneg (v : Vec2) : 0 ≤ v.lengthSq := by
  have hx := sq_nonneg v.x
  have hy := sq_nonneg v.y
  simp only [Vec2.lengthSq]
  linarith

theorem Vec2.length_eq_zero_iff (v : Vec2) : v.length = 0 ↔ v = Vec2.zero := by
  constructor
  · intro h
    have h' : v.x ^ 2 + v.y ^ 2 ≤ 0 := Real.sqrt_eq_zero'.mp h
    have hx := sq_nonneg v.x
    have hy := sq_nonneg v.y
    have hx0 : v.x ^ 2 = 0 := by linarith
    have hy0 : v.y ^ 2 = 0 := by linarith
    ext
    · exact pow_eq_zero_iff (two_ne_zero) |>.mp hx0
    · exact pow_eq_zero_iff (two_ne_zero) |>.mp hy0
  · intro h
    subst h
    simp [Vec2.length, Vec2.zero]

theorem Vec2.length_pos_iff (v : Vec2) : 0 < v.length ↔ v ≠ Vec2.zero := by
  constructor
  · intro h hv
    rw [(Vec2.length_eq_zero_iff v).mpr hv] at h
    exact lt_irrefl 0 h
  · intro h
    rcases lt_or_eq_of_le (Vec2.length_nonneg v) with h' | h'
    · exact h'
    · exact absurd ((Vec2.length_eq_zero_iff v).mp h'.symm) h

theorem Vec2.length_smul (v : Vec2) (c : ℝ) : (v.smul c).length = v.length * |c| := by
  simp only [Vec2.length, Vec2.smul]
  have h1 : (v.x * c) ^ 2 + (v.y * c) ^ 2 = (v.x ^ 2 + v.y ^ 2) * c ^ 2 := by ring
  rw [h1, Real.sqrt_mul (by positivity), Real.sqrt_sq_eq_abs]

theorem Vec2.divScalar_eq_smul (v : Vec2) (c : ℝ) : v.divScalar c = v.smul c⁻¹ := by
  ext <;> simp [Vec2.divScalar, Vec2.smul, div_eq_mul_inv]

theorem Vec2.length_divScalar (v : Vec2) (c : ℝ) :
    (v.divScalar c).length = v.length / |c| := by
  rw [Vec2.divScalar_eq_smul, Vec2.length_smul, abs_inv, div_eq_mul_inv]

theorem Vec2.normalized_of_ne_zero (v : Vec2) (h : v ≠ Vec2.zero) :
    v.normalized = v.divScalar v.length := by
  have hpos : 0 < v.length := (Vec2.length_pos_iff v).mpr h
  rw [Vec2.normalized, if_neg (not_le.mpr hpos)]

/-- Normalizing a nonzero vector yields a unit vector. -/
theorem Vec2.length_normalized (v : Vec2) (h : v ≠ Vec2.zero) :
    v.normalized.length = 1 := by
  have hpos : 0 < v.length := (Vec2.length_pos_iff v).mpr h
  rw [Vec2.normalized_of_ne_zero v h, Vec2.length_divScalar, abs_of_pos hpos,
    div_self (ne_of_gt hpos)]

/-- Normalizing the zero vector yields the zero vector. -/
theorem Vec2.normalized_zero : Vec2.zero.normalized = Vec2.zero := by
  simp [Vec2.normalized, Vec2.length, Vec2.zero]

/-- The classification colors used by the engine: boids are created
`Color32::WHITE` and reclassified to `SEPARATION_COLOR` (red),
`ALIGNMENT_COLOR` (green) or `COHESION_COLOR` (blue). -/
inductive BColor where
  | white
  | red
  | green
  | blue
deriving DecidableEq

/-- Per-agent state (`struct Boid` in `boid.rs` / `app.rs`), in source
field order. -/
structure Boid where
  velocity : Vec2
  position : Vec2
  acceleration : Vec2
  color : BColor

/-- `Boid::new`: initial velocity as given, zero acceleration, white color. -/
noncomputable def Boid.new (position : Vec2) (initial_velocity : Vec2) : Boid :=
  { velocity := initial_velocity
    position := position
    acceleration := Vec2.zero
    color := BColor.white }

/-- `Boid::apply_forces` (`boid.rs` lines 30-41): add the acceleration to the
velocity, rescale the velocity to `max_speed` when its length exceeds
`max_speed`, zero the acceleration, and advance the position by the (new)
velocity. -/
noncomputable def Boid.apply_forces (b : Boid) (max_speed : ℝ) : Boid :=
  let v1 := b.velocity + b.acceleration
  let v2 := if v1.length > max_speed then v1.normalized.smul max_speed else v1
  { b with velocity := v2, acceleration := Vec2.zero, position := b.position + v2 }

/-- `Boid::wrap` (`boid.rs` lines 43-56): four sequential `if`s, per axis;
the second `if` of each axis reads the coordinate already updated by the
first. -/
noncomputable def Boid.wrap (b : Boid) (left right top bottom : ℝ) : Boid :=
  let x1 := if b.position.x > right then left else b.position.x
  let x2 := if x1 < left then right else x1
  let y1 := if b.position.y > bottom then top else b.position.y
  let y2 := if y1 < top then bottom else y1
  { b with position := ⟨x2, y2⟩ }

/-- `Boid::calculate_separation_force` (`boid.rs` lines 58-90).  The loop's
two mutable locals (`steering_force`, `count`) become a pair accumulator. -/
noncomputable def Boid.calculate_separation_force (self : Boid) (boids : List Boid)
    (separation_weight max_force neighbor_radius : ℝ) : Vec2 :=
  let acc := boids.foldl
    (fun (acc : Vec2 × ℕ) other =>
      let distance := (self.position - other.position).length
      if 0 < distance ∧ distance < neighbor_radius then
        (acc.1 + (self.position - other.position).normalized, acc.2 + 1)
      else acc)
    (Vec2.zero, 0)
  let steering_force := if acc.2 > 0 then acc.1.divScalar (acc.2 : ℝ) else acc.1
  if steering_force.length > max_force then
    (steering_force.normalized.smul max_force).smul separation_weight
  else
    steering_force.smul separation_weight

/-- `Boid::seek` (`boid.rs` lines 119-126). -/
noncomputable def Boid.seek (self : Boid) (target_pos : Vec2) (max_speed max_force : ℝ) : Vec2 :=
  let desired := (target_pos - self.position).normalized.smul max_speed
  let steer := desired - self.velocity
  if steer.length > max_force then steer.normalized.smul max_force else steer

/-- `Boid::calculate_cohesion_force` (`boid.rs` lines 92-117). -/
noncomputable def Boid.calculate_cohesion_force (self : Boid) (boids : List Boid)
    (cohesion_weight max_force max_speed neighbor_radius : ℝ) : Vec2 :=
  let acc := boids.foldl
    (fun (acc : Vec2 × ℕ) other =>
      let distance := (self.position - other.position).length
      if 0 < distance ∧ distance < neighbor_radius then
        (acc.1 + other.position, acc.2 + 1)
      else acc)
    (Vec2.zero, 0)
  if acc.2 > 0 then
    (self.seek (acc.1.divScalar (acc.2 : ℝ)) max_speed max_force).smul cohesion_weight
  else
    Vec2.zero

/-- `Boid::calculate_alignment_force` (`boid.rs` lines 128-162). -/
noncomputable def Boid.calculate_alignment_force (self : Boid) (boids : List Boid)
    (alignment_weight max_speed max_force neighbor_radius : ℝ) : Vec2 :=
  let acc := boids.foldl
    (fun (acc : Vec2 × ℕ) other =>
      let distance := (self.position - other.position).length
      if 0 < distance ∧ distance < neighbor_radius then
        (acc.1 + other.velocity, acc.2 + 1)
      else acc)
    (Vec2.zero, 0)
  if acc.2 > 0 then
    let sum := ((acc.1.divScalar (acc.2 : ℝ)).normalized).smul max_speed
    let steer := sum - self.velocity
    if steer.length > max_force then
      (steer.normalized.smul max_force).smul alignment_weight
    else
      steer.smul alignment_weight
  else
    Vec2.zero

/-- `Boid::calculate_avoidance_force` (`boid.rs` lines 164-184). -/
noncomputable def Boid.calculate_avoidance_force (self : Boid) (predator_position : Vec2)
    (avoidance_weight max_force avoidance_radius : ℝ) : Vec2 :=
  let distance := (self.position - predator_position).length
  if distance < avoidance_radius then
    let steer := (self.position - predator_position).normalized
    if steer.length > max_force then
      (steer.normalized.smul max_force).smul avoidance_weight
    else
      steer.smul avoidance_weight
  else
    Vec2.zero

/-- Modelled from the spec: the per-frame predator input is an optional
position and "if predator is absent this frame, this contributes zero for
every boid" — the `Option` plumbing around `calculate_avoidance_force` is
not part of `src/`. -/
noncomputable def Boid.avoidance_of_predator (self : Boid) (predator : Option Vec2)
    (avoidance_weight max_force avoidance_radius : ℝ) : Vec2 :=
  match predator with
  | none => Vec2.zero
  | some p => self.calculate_avoidance_force p avoidance_weight max_force avoidance_radius

/-- Sum of a list of vectors. -/
noncomputable def sumVec (l : List Vec2) : Vec2 := l.foldr (fun a b => a + b) Vec2.zero

@[simp] theorem sumVec_nil : sumVec [] = Vec2.zero := rfl

@[simp] theorem sumVec_cons (v : Vec2) (l : List Vec2) : sumVec (v :: l) = v + sumVec l := rfl

theorem Vec2.add_assoc' (a b c : Vec2) : a + b + c = a + (b + c) := by
  ext <;> simp [add_assoc]

theorem Vec2.add_zero' (a : Vec2) : a + Vec2.zero = a := by
  ext <;> simp

theorem Vec2.zero_add' (a : Vec2) : Vec2.zero + a = a := by
  ext <;> simp

/-- The spec's neighbor set: the boids of the list whose distance to `self`
is strictly greater than `0` and strictly less than `neighbor_radius`. -/
noncomputable def Boid.neighborsOf (self : Boid) (boids : List Boid)
    (neighbor_radius : ℝ) : List Boid :=
  boids.filter fun other =>
    decide (0 < (self.position - other.position).length ∧
      (self.position - other.position).length < neighbor_radius)

/-- Clamping a vector's magnitude to `max_force`, as the spec words it:
rescale to the bound exactly when the magnitude exceeds it. -/
noncomputable def clampMagnitude (max_force : ℝ) (v : Vec2) : Vec2 :=
  if v.length > max_force then v.normalized.smul max_force else v

/-- `calculate_separation_force` as the spec words it: over the neighbors at
distance in `(0, neighbor_radius)`, accumulate the unit vector pointing away
from each, divide the sum by the neighbor count (zero vector on zero matches,
without dividing), clamp the magnitude to `max_force`, scale by the weight. -/
noncomputable def separationSpec (self : Boid) (boids : List Boid)
    (separation_weight max_force neighbor_radius : ℝ) : Vec2 :=
  let neighbors := self.neighborsOf boids neighbor_radius
  let avg :=
    if neighbors.length = 0 then Vec2.zero
    else (sumVec (neighbors.map fun other =>
      (self.position - other.position).normalized)).divScalar (neighbors.length : ℝ)
  (clampMagnitude max_force avg).smul separation_weight

/-- `calculate_alignment_force` as the spec words it, over the same neighbor
set `Boid.neighborsOf` (same radius and same strict bounds as separation). -/
noncomputable def alignmentSpec (self : Boid) (boids : List Boid)
    (alignment_weight max_speed max_force neighbor_radius : ℝ) : Vec2 :=
  let neighbors := self.neighborsOf boids neighbor_radius
  if neighbors.length = 0 then Vec2.zero
  else
    let avg := (sumVec (neighbors.map Boid.velocity)).divScalar (neighbors.length : ℝ)
    let steer := avg.normalized.smul max_speed - self.velocity
    (clampMagnitude max_force steer).smul alignment_weight

/-- `calculate_cohesion_force` as the spec words it, over the same neighbor
set `Boid.neighborsOf` (same radius and same strict bounds as separation). -/
noncomputable def cohesionSpec (self : Boid) (boids : List Boid)
    (cohesion_weight max_force max_speed neighbor_radius : ℝ) : Vec2 :=
  let neighbors := self.neighborsOf boids neighbor_radius
  if neighbors.length = 0 then Vec2.zero
  else
    (self.seek ((sumVec (neighbors.map Boid.position)).divScalar (neighbors.length : ℝ))
      max_speed max_force).smul cohesion_weight

/-- The neighbor-scan loop shape shared by the three flocking forces: a fold
accumulating a vector sum and a match count equals the sum and length of the
corresponding filtered, mapped list. -/
theorem foldl_filter_pair (p : Boid → Prop) [DecidablePred p] (f : Boid → Vec2)
    (l : List Boid) (v0 : Vec2) (n0 : ℕ) :
    l.foldl (fun (acc : Vec2 × ℕ) other =>
        if p other then (acc.1 + f other, acc.2 + 1) else acc) (v0, n0) =
      (v0 + sumVec (((l.filter fun o => decide (p o)).map f)),
        n0 + (l.filter fun o => decide (p o)).length) := by
  induction l generalizing v0 n0 with
  | nil => simp [Vec2.add_zero']
  | cons hd tl ih =>
    by_cases h : p hd
    · rw [List.foldl_cons, if_pos h, ih]
      simp only [List.filter_cons, decide_eq_true_eq, h, if_pos, List.map_cons,
        sumVec_cons, List.length_cons]
      rw [Vec2.add_assoc']
      refine Prod.ext rfl ?_
      omega
    · rw [List.foldl_cons, if_neg h, ih]
      simp only [List.filter_cons, decide_eq_true_eq, h, if_neg, ite_false]

/-- The final clamp-and-scale shape shared by the force calculations. -/
theorem clamp_smul_comm (v : Vec2) (mf w : ℝ) :
    (if v.length > mf then (v.normalized.smul mf).smul w else v.smul w) =
      (clampMagnitude mf v).smul w := by
  unfold clampMagnitude
  split_ifs <;> rfl

theorem separation_tail_eq (S : Vec2) (L : ℕ) (w mf : ℝ) (h0 : L = 0 → S = Vec2.zero) :
    (if (if L > 0 then S.divScalar (L : ℝ) else S).length > mf then
        (((if L > 0 then S.divScalar (L : ℝ) else S).normalized).smul mf).smul w
      else (if L > 0 then S.divScalar (L : ℝ) else S).smul w) =
      (clampMagnitude mf (if L = 0 then Vec2.zero else S.divScalar (L : ℝ))).smul w := by
  rw [clamp_smul_comm]
  by_cases hL : L = 0
  · rw [h0 hL, if_pos hL, if_neg (by omega : ¬ L > 0)]
  · rw [if_neg hL, if_pos (Nat.pos_of_ne_zero hL)]

/-- `calculate_separation_force`'s loop agrees with the spec-side
`separationSpec`. -/
theorem calculate_separation_force_eq_spec (self : Boid) (boids : List Boid)
    (w mf r : ℝ) :
    self.calculate_separation_force boids w mf r = separationSpec self boids w mf r := by
  simp only [Boid.calculate_separation_force, separationSpec, Boid.neighborsOf]
  rw [foldl_filter_pair (fun other => 0 < (self.position - other.position).length ∧
        (self.position - other.position).length < r)
      (fun other => (self.position - other.position).normalized) boids Vec2.zero 0]
  simp only [Vec2.zero_add', Nat.zero_add]
  exact separation_tail_eq _ _ _ _ (fun hL => by
    rw [List.length_eq_zero.mp hL, List.map_nil, sumVec_nil])

/-- `calculate_alignment_force`'s loop agrees with the spec-side
`alignmentSpec`. -/
theorem calculate_alignment_force_eq_spec (self : Boid) (boids : List Boid)
    (w ms mf r : ℝ) :
    self.calculate_alignment_force boids w ms mf r = alignmentSpec self boids w ms mf r := by
  simp only [Boid.calculate_alignment_force, alignmentSpec, Boid.neighborsOf]
  rw [foldl_filter_pair (fun other => 0 < (self.position - other.position).length ∧
        (self.position - other.position).length < r)
      (fun other => other.velocity) boids Vec2.zero 0]
  simp only [Vec2.zero_add', Nat.zero_add]
  by_cases hL : (boids.filter fun o =>
      decide (0 < (self.position - o.position).length ∧
        (self.position - o.position).length < r)).length = 0
  · rw [if_neg (by omega : ¬ _ > 0), if_pos hL]
  · rw [if_pos (Nat.pos_of_ne_zero hL), if_neg hL, clamp_smul_comm]

/-- `calculate_cohesion_force`'s loop agrees with the spec-side
`cohesionSpec`. -/
theorem calculate_cohesion_force_eq_spec (self : Boid) (boids : List Boid)
    (w mf ms r : ℝ) :
    self.calculate_cohesion_force boids w mf ms r = cohesionSpec self boids w mf ms r := by
  simp only [Boid.calculate_cohesion_force, cohesionSpec, Boid.neighborsOf]
  rw [foldl_filter_pair (fun other => 0 < (self.position - other.position).length ∧
        (self.position - other.position).length < r)
      (fun other => other.position) boids Vec2.zero 0]
  simp only [Vec2.zero_add', Nat.zero_add]
  by_cases hL : (boids.filter fun o =>
      decide (0 < (self.position - o.position).length ∧
        (self.position - o.position).length < r)).length = 0
  · rw [if_neg (by omega : ¬ _ > 0), if_pos hL]
  · rw [if_pos (Nat.pos_of_ne_zero hL), if_neg hL]

/-- The local copy of the separation force in `app.rs` (lines 332-363): the
identical loop with the neighbor radius hardcoded to `15.0`. -/
noncomputable def appSeparationForce (b : Boid) (boids : List Boid) (w mf : ℝ) : Vec2 :=
  b.calculate_separation_force boids w mf 15

/-- The local copy of the alignment force in `app.rs` (lines 400-433): the
identical loop with the radius hardcoded to `NEIGHBOR_RADIUS = 50.0`. -/
noncomputable def appAlignmentForce (b : Boid) (boids : List Boid) (w ms mf : ℝ) : Vec2 :=
  b.calculate_alignment_force boids w ms mf 50

/-- The local copy of the cohesion force in `app.rs` (lines 365-389): the
identical loop with the radius hardcoded to `NEIGHBOR_RADIUS = 50.0`. -/
noncomputable def appCohesionForce (b : Boid) (boids : List Boid) (w mf ms : ℝ) : Vec2 :=
  b.calculate_cohesion_force boids w mf ms 50

/-- The engine-relevant state of `struct BoidsApp` (`app.rs` lines 32-55):
the boid collection and the scalar parameters; the UI and timing fields are
out of the engine's scope. -/
structure BoidsApp where
  boids : List Boid
  num_boids : ℕ
  max_speed : ℝ
  max_force : ℝ
  separation_weight : ℝ
  alignment_weight : ℝ
  cohesion_weight : ℝ

/-- Phase one of `update_forces` (`app.rs` lines 138-143): the separation
force of every boid against the whole collection. -/
noncomputable def sepForcesList (boids : List Boid) (w mf : ℝ) : List Vec2 :=
  boids.map fun b => appSeparationForce b boids w mf

/-- Phase one of `update_forces` (`app.rs` lines 145-150): the alignment
force of every boid against the whole collection. -/
noncomputable def alignForcesList (boids : List Boid) (w ms mf : ℝ) : List Vec2 :=
  boids.map fun b => appAlignmentForce b boids w ms mf

/-- Phase one of `update_forces` (`app.rs` lines 152-157): the cohesion
force of every boid against the whole collection. -/
noncomputable def cohForcesList (boids : List Boid) (w mf ms : ℝ) : List Vec2 :=
  boids.map fun b => appCohesionForce b boids w mf ms

/-- The classification chain of `update_forces` (`app.rs` lines 165-177):
three chained `if / else if` comparisons of squared magnitudes, with no
final `else` — on no strict winner the previous color is kept. -/
noncomputable def classify_color (sep align coh : Vec2) (c : BColor) : BColor :=
  if sep.lengthSq > align.lengthSq ∧ sep.lengthSq > coh.lengthSq then BColor.red
  else if align.lengthSq > sep.lengthSq ∧ align.lengthSq > coh.lengthSq then BColor.green
  else if coh.lengthSq > align.lengthSq ∧ coh.lengthSq > sep.lengthSq then BColor.blue
  else c

/-- The body of the second loop of `update_forces` (`app.rs` lines 161-177)
for one boid: add the three forces to the acceleration, then reclassify. -/
noncomputable def applyOne (b : Boid) (sep align coh : Vec2) : Boid :=
  { b with
    acceleration := b.acceleration + sep + align + coh
    color := classify_color sep align coh b.color }

/-- The second loop of `update_forces` (`app.rs` lines 160-178): indexwise
application of the precomputed force vectors. -/
noncomputable def applyAll : List Boid → List Vec2 → List Vec2 → List Vec2 → List Boid
  | b :: bs, f1 :: fs1, f2 :: fs2, f3 :: fs3 =>
      applyOne b f1 f2 f3 :: applyAll bs fs1 fs2 fs3
  | _, _, _, _ => []

/-- `BoidsApp::update_forces` (`app.rs` lines 133-179): compute all three
force lists from the current collection, then apply them all. -/
noncomputable def updateForces (s : BoidsApp) : BoidsApp :=
  { s with
    boids :=
      applyAll s.boids
        (sepForcesList s.boids s.separation_weight s.max_force)
        (alignForcesList s.boids s.alignment_weight s.max_speed s.max_force)
        (cohForcesList s.boids s.cohesion_weight s.max_force s.max_speed) }

/-- `BoidsApp::update_boids_position` (`app.rs` lines 103-131): per boid,
exactly the integration step of `Boid::apply_forces` followed by the wrap at
the constants `LEFT = -400`, `RIGHT = 400`, `TOP = -300`, `BOTTOM = 300`.
The `dt` argument is unused: the `* dt` displacement scaling is commented
out in the source. -/
noncomputable def updateBoidsPosition (s : BoidsApp) (dt : ℝ) : BoidsApp :=
  { s with boids := s.boids.map fun b =>
      (b.apply_forces s.max_speed).wrap (-400) 400 (-300) 300 }

/-- The population-resize block at the head of `update_boids` (`app.rs`
lines 76-97).  The source's removal loop is `for _ in [0..len - num]`,
which iterates over a one-element array holding the range, so its body
(`remove(len - 1)`) runs exactly once; the insertion branch likewise pushes
a single freshly sampled boid, supplied here as `new_boid`. -/
def resizeStep (boids : List Boid) (num_boids : ℕ) (new_boid : Boid) : List Boid :=
  if boids.length > num_boids then boids.dropLast
  else if boids.length < num_boids then boids ++ [new_boid]
  else boids

/-- `BoidsApp::update_boids` (`app.rs` lines 74-101): resize, then
`update_forces`, then `update_boids_position dt`. -/
noncomputable def updateBoids (s : BoidsApp) (dt : ℝ) (new_boid : Boid) : BoidsApp :=
  updateBoidsPosition
    (updateForces { s with boids := resizeStep s.boids s.num_boids new_boid }) dt

/-- A concrete boid at a given position, at rest, unclassified. -/
noncomputable def sampleBoid (px py : ℝ) : Boid :=
  { velocity := Vec2.zero
    position := ⟨px, py⟩
    acceleration := Vec2.zero
    color := BColor.white }

/-- C3 (counterexample): the claimed strict post-bound `position.x < right`
fails.  A boid one unit to the left of the left bound (so it certainly moved
less than the domain width) wraps to exactly `right = 400`, and `400 < 400`
is false. -/
theorem wrap_strict_bound_counterexample :
    (Boid.wrap (sampleBoid (-401) 0) (-400) 400 (-300) 300).position.x = 400 ∧
    ¬ (Boid.wrap (sampleBoid (-401) 0) (-400) 400 (-300) 300).position.x < 400 := by
  have h : (Boid.wrap (sampleBoid (-401) 0) (-400) 400 (-300) 300).position.x = 400 := by
    simp only [Boid.wrap, sampleBoid]
    norm_num
  exact ⟨h, by rw [h]; exact lt_irrefl 400⟩

/-- C3 (amended): for `left ≤ right` and `top ≤ bottom`, after `wrap` the
position lies in the closed box `[left, right] × [top, bottom]` (the high
bound is attainable: a coordinate below the low bound snaps to exactly the
high bound), with no bound needed on how far the boid moved; wrapping is an
instantaneous per-axis teleport — a coordinate past the high bound snaps to
exactly the low bound and vice versa, never a modulo remap — and an in-range
coordinate is untouched. -/
theorem wrap_bounds_amended (b : Boid) (left right top bottom : ℝ)
    (hlr : left ≤ right) (htb : top ≤ bottom) :
    (left ≤ (b.wrap left right top bottom).position.x ∧
      (b.wrap left right top bottom).position.x ≤ right ∧
      top ≤ (b.wrap left right top bottom).position.y ∧
      (b.wrap left right top bottom).position.y ≤ bottom) ∧
    (b.position.x > right → (b.wrap left right top bottom).position.x = left) ∧
    (b.position.x < left → (b.wrap left right top bottom).position.x = right) ∧
    (left ≤ b.position.x → b.position.x ≤ right →
      (b.wrap left right top bottom).position.x = b.position.x) ∧
    (b.position.y > bottom → (b.wrap left right top bottom).position.y = top) ∧
    (b.position.y < top → (b.wrap left right top bottom).position.y = bottom) ∧
    (top ≤ b.position.y → b.position.y ≤ bottom →
      (b.wrap left right top bottom).position.y = b.position.y) := by
  simp only [Boid.wrap]
  split_ifs <;>
    exact ⟨⟨by linarith, by linarith, by linarith, by linarith⟩,
      fun h => by linarith, fun h => by linarith, fun h1 h2 => by linarith,
      fun h => by linarith, fun h => by linarith, fun h1 h2 => by linarith⟩

/-- Witness for the amended C3 theorem at a concrete input: a boid past the
right bound and above the top bound teleports to the opposite edges and
lands inside the closed box. -/
theorem wrap_bounds_amended_witness :
    (-400 : ℝ) ≤ 400 ∧ (-300 : ℝ) ≤ 300 ∧
    ((-400 ≤ ((sampleBoid 1000 (-301)).wrap (-400) 400 (-300) 300).position.x ∧
      ((sampleBoid 1000 (-301)).wrap (-400) 400 (-300) 300).position.x ≤ 400 ∧
      -300 ≤ ((sampleBoid 1000 (-301)).wrap (-400) 400 (-300) 300).position.y ∧
      ((sampleBoid 1000 (-301)).wrap (-400) 400 (-300) 300).position.y ≤ 300) ∧
    ((sampleBoid 1000 (-301)).position.x > 400 →
      ((sampleBoid 1000 (-301)).wrap (-400) 400 (-300) 300).position.x = -400) ∧
    ((sampleBoid 1000 (-301)).position.x < -400 →
      ((sampleBoid 1000 (-301)).wrap (-400) 400 (-300) 300).position.x = 400) ∧
    (-400 ≤ (sampleBoid 1000 (-301)).position.x → (sampleBoid 1000 (-301)).position.x ≤ 400 →
      ((sampleBoid 1000 (-301)).wrap (-400) 400 (-300) 300).position.x =
        (sampleBoid 1000 (-301)).position.x) ∧
    ((sampleBoid 1000 (-301)).position.y > 300 →
      ((sampleBoid 1000 (-301)).wrap (-400) 400 (-300) 300).position.y = -300) ∧
    ((sampleBoid 1000 (-301)).position.y < -300 →
      ((sampleBoid 1000 (-301)).wrap (-400) 400 (-300) 300).position.y = 300) ∧
    (-300 ≤ (sampleBoid 1000 (-301)).position.y → (sampleBoid 1000 (-301)).position.y ≤ 300 →
      ((sampleBoid 1000 (-301)).wrap (-400) 400 (-300) 300).position.y =
        (sampleBoid 1000 (-301)).position.y)) :=
  ⟨by norm_num, by norm_num,
    wrap_bounds_amended (sampleBoid 1000 (-301)) (-400) 400 (-300) 300
      (by norm_num) (by norm_num)⟩

theorem applyAll_length (bs : List Boid) :
    ∀ (l1 l2 l3 : List Vec2), l1.length = bs.length → l2.length = bs.length →
      l3.length = bs.length → (applyAll bs l1 l2 l3).length = bs.length := by
  induction bs with
  | nil =>
    intro l1 l2 l3 h1 h2 h3
    rw [List.length_eq_zero.mp h1]
    cases l2 <;> cases l3 <;> rfl
  | cons b bs ih =>
    intro l1 l2 l3 h1 h2 h3
    cases l1 with
    | nil => simp at h1
    | cons f1 fs1 =>
      cases l2 with
      | nil => simp at h2
      | cons f2 fs2 =>
        cases l3 with
        | nil => simp at h3
        | cons f3 fs3 =>
          simp only [applyAll, List.length_cons]
          rw [ih fs1 fs2 fs3 (by simpa using h1) (by simpa using h2) (by simpa using h3)]

theorem updateForces_boids_length (s : BoidsApp) :
    (updateForces s).boids.length = s.boids.length := by
  simp only [updateForces]
  exact applyAll_length s.boids _ _ _ (by simp [sepForcesList]) (by simp [alignForcesList])
    (by simp [cohForcesList])

theorem updateBoids_boids_length (s : BoidsApp) (dt : ℝ) (nb : Boid) :
    (updateBoids s dt nb).boids.length = (resizeStep s.boids s.num_boids nb).length := by
  simp only [updateBoids, updateBoidsPosition, List.length_map]
  exact updateForces_boids_length _

/-- The concrete application state used in the resize claims: three boids at
the origin, a target population of one, default parameter values. -/
noncomputable def resizeDemoApp : BoidsApp :=
  { boids := [sampleBoid 0 0, sampleBoid 0 0, sampleBoid 0 0]
    num_boids := 1
    max_speed := 5
    max_force := 1/2
    separation_weight := 1
    alignment_weight := 1
    cohesion_weight := 1 }

/-- C1: one call of the per-frame update does not bring the population to
the target.  With three boids and `num_boids = 1`, the removal loop
`for _ in [0..len - num]` iterates over the one-element array `[0..2]`, so
exactly one boid is removed and two survive; symmetrically with zero boids
and `num_boids = 2` the insertion branch pushes exactly one boid. -/
theorem resize_single_call_misses_target :
    (updateBoids resizeDemoApp 0 (sampleBoid 0 0)).boids.length = 2 ∧
      resizeDemoApp.num_boids = 1 ∧
    (updateBoids { resizeDemoApp with boids := [], num_boids := 2 } 0
        (sampleBoid 0 0)).boids.length = 1 := by
  refine ⟨?_, rfl, ?_⟩
  · rw [updateBoids_boids_length]
    simp [resizeDemoApp, resizeStep]
  · rw [updateBoids_boids_length]
    simp [resizeDemoApp, resizeStep]

/-- C9: the resize step is not idempotent.  With three boids and a target of
one, the first call removes a single boid (leaving two) and the second call
removes another, so the second call changes the collection. -/
theorem resize_twice_changes_collection :
    resizeStep (resizeStep [sampleBoid 0 0, sampleBoid 0 0, sampleBoid 0 0] 1 (sampleBoid 0 0)) 1
        (sampleBoid 0 0) ≠
      resizeStep [sampleBoid 0 0, sampleBoid 0 0, sampleBoid 0 0] 1 (sampleBoid 0 0) := by
  intro h
  have hlen := congrArg List.length h
  simp [resizeStep] at hlen

/-- The four force categories of the spec's dominant-force classification. -/
inductive ForceCategory where
  | separation
  | alignment
  | cohesion
  | avoidance
deriving DecidableEq

/-- The spec's dominant-force classification over the four candidate forces:
`some` of whichever category has strictly greater squared magnitude than all
three others, `none` when there is no strict winner (ties included). -/
noncomputable def dominantCategory (sep align coh avoid : Vec2) : Option ForceCategory :=
  if sep.lengthSq > align.lengthSq ∧ sep.lengthSq > coh.lengthSq ∧
      sep.lengthSq > avoid.lengthSq then
    some ForceCategory.separation
  else if align.lengthSq > sep.lengthSq ∧ align.lengthSq > coh.lengthSq ∧
      align.lengthSq > avoid.lengthSq then
    some ForceCategory.alignment
  else if coh.lengthSq > sep.lengthSq ∧ coh.lengthSq > align.lengthSq ∧
      coh.lengthSq > avoid.lengthSq then
    some ForceCategory.cohesion
  else if avoid.lengthSq > sep.lengthSq ∧ avoid.lengthSq > align.lengthSq ∧
      avoid.lengthSq > coh.lengthSq then
    some ForceCategory.avoidance
  else none

theorem lengthSq_zero : Vec2.zero.lengthSq = 0 := by
  simp [Vec2.lengthSq]

/-- C2: in the app's update pass (which supplies no predator, so the
avoidance force is the zero vector for every boid), the classification chain
sets the tag to a category exactly when that category is the strict
four-way winner by squared magnitude — and on no strict winner (ties and
the all-zero case included) the previous tag is kept; the avoidance
category, whose force is zero, is never the strict winner, so no avoidance
tag is ever assigned. -/
theorem classification_strict_winner (sep align coh : Vec2) (c : BColor)
    (b : Boid) (w mf r : ℝ) :
    classify_color sep align coh c =
      (match dominantCategory sep align coh (b.avoidance_of_predator none w mf r) with
        | some ForceCategory.separation => BColor.red
        | some ForceCategory.alignment => BColor.green
        | some ForceCategory.cohesion => BColor.blue
        | some ForceCategory.avoidance => c
        | none => c) ∧
    dominantCategory sep align coh (b.avoidance_of_predator none w mf r) ≠
      some ForceCategory.avoidance := by
  have havoid : b.avoidance_of_predator none w mf r = Vec2.zero := rfl
  rw [havoid]
  have e1 : (sep.lengthSq > align.lengthSq ∧ sep.lengthSq > coh.lengthSq ∧
      sep.lengthSq > Vec2.zero.lengthSq) ↔
      (sep.lengthSq > align.lengthSq ∧ sep.lengthSq > coh.lengthSq) := by
    rw [lengthSq_zero]
    constructor
    · rintro ⟨h1, h2, _⟩; exact ⟨h1, h2⟩
    · rintro ⟨h1, h2⟩
      exact ⟨h1, h2, lt_of_le_of_lt (Vec2.lengthSq_nonneg align) h1⟩
  have e2 : (align.lengthSq > sep.lengthSq ∧ align.lengthSq > coh.lengthSq ∧
      align.lengthSq > Vec2.zero.lengthSq) ↔
      (align.lengthSq > sep.lengthSq ∧ align.lengthSq > coh.lengthSq) := by
    rw [lengthSq_zero]
    constructor
    · rintro ⟨h1, h2, _⟩; exact ⟨h1, h2⟩
    · rintro ⟨h1, h2⟩
      exact ⟨h1, h2, lt_of_le_of_lt (Vec2.lengthSq_nonneg sep) h1⟩
  have e3 : (coh.lengthSq > sep.lengthSq ∧ coh.lengthSq > align.lengthSq ∧
      coh.lengthSq > Vec2.zero.lengthSq) ↔
      (coh.lengthSq > align.lengthSq ∧ coh.lengthSq > sep.lengthSq) := by
    rw [lengthSq_zero]
    constructor
    · rintro ⟨h1, h2, _⟩; exact ⟨h2, h1⟩
    · rintro ⟨h1, h2⟩
      exact ⟨h2, h1, lt_of_le_of_lt (Vec2.lengthSq_nonneg sep) h2⟩
  have e4 : (Vec2.zero.lengthSq > sep.lengthSq ∧ Vec2.zero.lengthSq > align.lengthSq ∧
      Vec2.zero.lengthSq > coh.lengthSq) ↔ False := by
    rw [lengthSq_zero]
    simp only [iff_false]
    rintro ⟨h1, _, _⟩
    exact absurd (Vec2.lengthSq_nonneg sep) (not_le.mpr h1)
  unfold classify_color dominantCategory
  simp only [e1, e2, e3, e4, if_false]
  constructor
  · split_ifs <;> rfl
  · split_ifs <;> simp

/-- The classification chain only ever keeps the previous color or assigns
red, green, or blue. -/
theorem classify_color_mem (f1 f2 f3 : Vec2) (c : BColor) :
    classify_color f1 f2 f3 c = c ∨ classify_color f1 f2 f3 c = BColor.red ∨
      classify_color f1 f2 f3 c = BColor.green ∨ classify_color f1 f2 f3 c = BColor.blue := by
  unfold classify_color
  split_ifs <;> simp

theorem applyAll_forall₂ {R : Boid → Boid → Prop}
    (hR : ∀ b f1 f2 f3, R b (applyOne b f1 f2 f3)) (bs : List Boid) :
    ∀ (l1 l2 l3 : List Vec2), l1.length = bs.length → l2.length = bs.length →
      l3.length = bs.length → List.Forall₂ R bs (applyAll bs l1 l2 l3) := by
  induction bs with
  | nil =>
    intro l1 l2 l3 h1 h2 h3
    rw [List.length_eq_zero.mp h1]
    cases l2 <;> cases l3 <;> exact List.Forall₂.nil
  | cons b bs ih =>
    intro l1 l2 l3 h1 h2 h3
    cases l1 with
    | nil => simp at h1
    | cons f1 fs1 =>
      cases l2 with
      | nil => simp at h2
      | cons f2 fs2 =>
        cases l3 with
        | nil => simp at h3
        | cons f3 fs3 =>
          exact List.Forall₂.cons (hR b f1 f2 f3)
            (ih fs1 fs2 fs3 (by simpa using h1) (by simpa using h2) (by simpa using h3))

theorem updateForces_color_forall₂ (s : BoidsApp) :
    List.Forall₂ (fun b b' => b'.color = b.color ∨ b'.color = BColor.red ∨
        b'.color = BColor.green ∨ b'.color = BColor.blue)
      s.boids (updateForces s).boids := by
  simp only [updateForces]
  exact applyAll_forall₂ (fun b f1 f2 f3 => classify_color_mem f1 f2 f3 b.color) s.boids _ _ _
    (by simp [sepForcesList]) (by simp [alignForcesList]) (by simp [cohForcesList])

/-- C10: (a) a freshly created boid carries the white ("none") tag;
(b) `update_forces` either keeps each boid's tag or assigns exactly red
(separation), green (alignment) or blue (cohesion) — white is never
assigned, so the code defines no avoidance tag at all and a classified boid
is never reset to "none"; (c) the position/wrap pass never touches tags. -/
theorem classification_tag_lifecycle :
    (∀ p v, (Boid.new p v).color = BColor.white) ∧
    (∀ s : BoidsApp, List.Forall₂ (fun b b' => b'.color = b.color ∨ b'.color = BColor.red ∨
        b'.color = BColor.green ∨ b'.color = BColor.blue)
      s.boids (updateForces s).boids) ∧
    (∀ s : BoidsApp, List.Forall₂ (fun b b' => b.color ≠ BColor.white → b'.color ≠ BColor.white)
      s.boids (updateForces s).boids) ∧
    (∀ (s : BoidsApp) (dt : ℝ),
      (updateBoidsPosition s dt).boids.map Boid.color = s.boids.map Boid.color) := by
  refine ⟨fun p v => rfl, updateForces_color_forall₂, ?_, ?_⟩
  · intro s
    refine (updateForces_color_forall₂ s).imp ?_
    rintro b b' (h | h | h | h) hw <;> rw [h]
    · exact hw
    all_goals simp
  · intro s dt
    simp only [updateBoidsPosition, List.map_map]
    rfl

theorem Vec2.smul_smul (v : Vec2) (a b : ℝ) : (v.smul a).smul b = v.smul (a * b) := by
  ext <;> simp [mul_assoc]

theorem normalized_smul_eq (v : Vec2) (h : v ≠ Vec2.zero) (c : ℝ) :
    v.normalized.smul c = v.smul (c / v.length) := by
  rw [Vec2.normalized_of_ne_zero v h, Vec2.divScalar_eq_smul, Vec2.smul_smul,
    inv_mul_eq_div]

/-- C4: the integration step.  For `0 ≤ max_speed`: the acceleration is
zeroed; the new position is the old position plus the new velocity; when
`|velocity + acceleration| ≤ max_speed` the new velocity is exactly
`velocity + acceleration`; when it exceeds `max_speed` the new velocity is
that same vector rescaled by the nonnegative factor
`max_speed / |velocity + acceleration|` (direction preserved) and has
magnitude exactly `max_speed`; in all cases the final speed is at most
`max_speed`.  Separately, `update_boids_position` ignores its elapsed-time
argument entirely: the displacement is never scaled by `dt` (fixed-step
integration). -/
theorem apply_forces_fixed_step :
    (∀ (b : Boid) (ms : ℝ), 0 ≤ ms →
      (b.apply_forces ms).acceleration = Vec2.zero ∧
      (b.apply_forces ms).position = b.position + (b.apply_forces ms).velocity ∧
      ((b.velocity + b.acceleration).length ≤ ms →
        (b.apply_forces ms).velocity = b.velocity + b.acceleration) ∧
      ((b.velocity + b.acceleration).length > ms →
        (b.apply_forces ms).velocity =
          (b.velocity + b.acceleration).smul (ms / (b.velocity + b.acceleration).length) ∧
        0 ≤ ms / (b.velocity + b.acceleration).length ∧
        (b.apply_forces ms).velocity.length = ms) ∧
      (b.apply_forces ms).velocity.length ≤ ms) ∧
    (∀ (s : BoidsApp) (dt dt' : ℝ), updateBoidsPosition s dt = updateBoidsPosition s dt') := by
  refine ⟨fun b ms hms => ?_, fun s dt dt' => rfl⟩
  have hvel_def : (b.apply_forces ms).velocity =
      if (b.velocity + b.acceleration).length > ms then
        ((b.velocity + b.acceleration).normalized).smul ms
      else b.velocity + b.acceleration := rfl
  have hacc : (b.apply_forces ms).acceleration = Vec2.zero := rfl
  have hpos : (b.apply_forces ms).position = b.position + (b.apply_forces ms).velocity := rfl
  by_cases h : (b.velocity + b.acceleration).length > ms
  · have hL : 0 < (b.velocity + b.acceleration).length := lt_of_le_of_lt hms h
    have hne : b.velocity + b.acceleration ≠ Vec2.zero :=
      fun h0 => ne_of_gt hL ((Vec2.length_eq_zero_iff _).mpr h0)
    have hvel : (b.apply_forces ms).velocity =
        (b.velocity + b.acceleration).smul (ms / (b.velocity + b.acceleration).length) := by
      rw [hvel_def, if_pos h, normalized_smul_eq _ hne]
    have hlen : (b.apply_forces ms).velocity.length = ms := by
      rw [hvel, Vec2.length_smul, abs_of_nonneg (div_nonneg hms (le_of_lt hL)), mul_comm,
        div_mul_cancel₀ ms (ne_of_gt hL)]
    exact ⟨hacc, hpos, fun hle => absurd hle (not_le.mpr h),
      fun h2 => ⟨hvel, div_nonneg hms (le_of_lt hL), hlen⟩, le_of_eq hlen⟩
  · have hvel : (b.apply_forces ms).velocity = b.velocity + b.acceleration := by
      rw [hvel_def, if_neg h]
    exact ⟨hacc, hpos, fun h2 => hvel, fun hgt => absurd hgt h, by
      rw [hvel]; exact not_lt.mp h⟩

/-- The concrete boid used in the C4 witness: velocity `(3, 0)` and
acceleration `(4, 0)`, so the pre-clamp velocity is `(7, 0)` of length `7`,
which exceeds the `max_speed` of `5`. -/
noncomputable def c4WitnessBoid : Boid :=
  { velocity := ⟨3, 0⟩
    position := ⟨0, 0⟩
    acceleration := ⟨4, 0⟩
    color := BColor.white }

/-- Witness for the C4 theorem at `max_speed = 5`. -/
theorem apply_forces_fixed_step_witness :
    (0 : ℝ) ≤ 5 ∧
    ((c4WitnessBoid.apply_forces 5).acceleration = Vec2.zero ∧
      (c4WitnessBoid.apply_forces 5).position =
        c4WitnessBoid.position + (c4WitnessBoid.apply_forces 5).velocity ∧
      ((c4WitnessBoid.velocity + c4WitnessBoid.acceleration).length ≤ 5 →
        (c4WitnessBoid.apply_forces 5).velocity =
          c4WitnessBoid.velocity + c4WitnessBoid.acceleration) ∧
      ((c4WitnessBoid.velocity + c4WitnessBoid.acceleration).length > 5 →
        (c4WitnessBoid.apply_forces 5).velocity =
          (c4WitnessBoid.velocity + c4WitnessBoid.acceleration).smul
            (5 / (c4WitnessBoid.velocity + c4WitnessBoid.acceleration).length) ∧
        0 ≤ 5 / (c4WitnessBoid.velocity + c4WitnessBoid.acceleration).length ∧
        (c4WitnessBoid.apply_forces 5).velocity.length = 5) ∧
      (c4WitnessBoid.apply_forces 5).velocity.length ≤ 5) :=
  ⟨by norm_num, apply_forces_fixed_step.1 c4WitnessBoid 5 (by norm_num)⟩

/-- C6: `calculate_separation_force` equals its spec-side formulation
`separationSpec` (neighbors are exactly the other boids at distance strictly
in `(0, neighbor_radius)`; accumulate the unit vectors pointing away; divide
by the match count, zero vector on zero matches without dividing; clamp the
magnitude to `max_force`; scale by the weight) — and alignment and cohesion
range over exactly the same neighbor set `Boid.neighborsOf` at the same
`neighbor_radius`, with the same strict bounds. -/
theorem separation_force_matches_spec (self : Boid) (boids : List Boid)
    (w ms mf r : ℝ) :
    self.calculate_separation_force boids w mf r = separationSpec self boids w mf r ∧
    self.calculate_alignment_force boids w ms mf r = alignmentSpec self boids w ms mf r ∧
    self.calculate_cohesion_force boids w mf ms r = cohesionSpec self boids w mf ms r :=
  ⟨calculate_separation_force_eq_spec self boids w mf r,
    calculate_alignment_force_eq_spec self boids w ms mf r,
    calculate_cohesion_force_eq_spec self boids w mf ms r⟩

/-- C8: the avoidance force is the zero vector whenever the distance to the
predator is at least `avoidance_radius`, and (modelled from the spec) when
no predator is supplied; when the distance is strictly below the radius the
result is the normalized vector pointing away from the predator — a unit
vector whenever the distance is positive, and unlike the other three forces
never scaled by `max_speed`, which is not even a parameter — clamped in
magnitude to `max_force` and scaled by the avoidance weight. -/
theorem avoidance_force_spec (b : Boid) (pred : Vec2) (w mf r : ℝ) :
    ((b.position - pred).length ≥ r →
      b.calculate_avoidance_force pred w mf r = Vec2.zero) ∧
    ((b.position - pred).length < r →
      b.calculate_avoidance_force pred w mf r =
        (clampMagnitude mf ((b.position - pred).normalized)).smul w) ∧
    (0 < (b.position - pred).length → ((b.position - pred).normalized).length = 1) ∧
    b.avoidance_of_predator none w mf r = Vec2.zero := by
  refine ⟨?_, ?_, ?_, rfl⟩
  · intro h
    simp only [Boid.calculate_avoidance_force]
    rw [if_neg (not_lt.mpr h)]
  · intro h
    simp only [Boid.calculate_avoidance_force]
    rw [if_pos h, clamp_smul_comm]
  · intro h
    exact Vec2.length_normalized _ ((Vec2.length_pos_iff _).mp h)

/-- Witness for the C8 theorem: a boid at `(10, 0)` with the predator at the
origin is at distance `10 ≥ 5`, so the avoidance force is zero; and an
absent predator contributes zero. -/
theorem avoidance_force_spec_witness :
    ((sampleBoid 10 0).position - Vec2.zero).length ≥ 5 ∧
    (sampleBoid 10 0).calculate_avoidance_force Vec2.zero 1 1 5 = Vec2.zero ∧
    (sampleBoid 10 0).avoidance_of_predator none 1 1 5 = Vec2.zero := by
  have hdist : ((sampleBoid 10 0).position - Vec2.zero).length = 10 := by
    simp only [sampleBoid, Vec2.length, Vec2.sub_x, Vec2.sub_y, Vec2.zero_x, Vec2.zero_y]
    rw [show ((10 : ℝ) - 0) ^ 2 + (0 - 0) ^ 2 = 10 ^ 2 by norm_num, Real.sqrt_sq (by norm_num)]
  have hge : ((sampleBoid 10 0).position - Vec2.zero).length ≥ 5 := by
    rw [hdist]; norm_num
  exact ⟨hge, (avoidance_force_spec (sampleBoid 10 0) Vec2.zero 1 1 5).1 hge,
    (avoidance_force_spec (sampleBoid 10 0) Vec2.zero 1 1 5).2.2.2⟩

/-- Two boids agreeing on the pre-frame snapshot data the force
computations read: position and velocity (acceleration and color free). -/
def kinEq (b1 b2 : Boid) : Prop :=
  b1.position = b2.position ∧ b1.velocity = b2.velocity

/-- Folds whose step reads other boids only through position and velocity
are invariant under `kinEq`-related collections. -/
theorem foldl_kin_congr {β : Type} (f : β → Vec2 → Vec2 → β) :
    ∀ {bs1 bs2 : List Boid}, List.Forall₂ kinEq bs1 bs2 → ∀ (acc : β),
      bs1.foldl (fun a o => f a o.position o.velocity) acc =
        bs2.foldl (fun a o => f a o.position o.velocity) acc := by
  intro bs1 bs2 h
  induction h with
  | nil => intro acc; rfl
  | @cons b1 b2 tl1 tl2 hbb htl ih =>
    intro acc
    simp only [List.foldl_cons]
    rw [hbb.1, hbb.2]
    exact ih _

theorem calculate_separation_force_congr (self1 self2 : Boid)
    (hp : self1.position = self2.position) (bs1 bs2 : List Boid)
    (h : List.Forall₂ kinEq bs1 bs2) (w mf r : ℝ) :
    self1.calculate_separation_force bs1 w mf r =
      self2.calculate_separation_force bs2 w mf r := by
  unfold Boid.calculate_separation_force
  rw [hp]
  rw [foldl_kin_congr
    (fun (a : Vec2 × ℕ) p v =>
      if 0 < (self2.position - p).length ∧ (self2.position - p).length < r then
        (a.1 + (self2.position - p).normalized, a.2 + 1)
      else a) h (Vec2.zero, 0)]

theorem calculate_alignment_force_congr (self1 self2 : Boid)
    (hp : self1.position = self2.position) (hv : self1.velocity = self2.velocity)
    (bs1 bs2 : List Boid) (h : List.Forall₂ kinEq bs1 bs2) (w ms mf r : ℝ) :
    self1.calculate_alignment_force bs1 w ms mf r =
      self2.calculate_alignment_force bs2 w ms mf r := by
  unfold Boid.calculate_alignment_force
  rw [hp, hv]
  rw [foldl_kin_congr
    (fun (a : Vec2 × ℕ) p v =>
      if 0 < (self2.position - p).length ∧ (self2.position - p).length < r then
        (a.1 + v, a.2 + 1)
      else a) h (Vec2.zero, 0)]

theorem calculate_cohesion_force_congr (self1 self2 : Boid)
    (hp : self1.position = self2.position) (hv : self1.velocity = self2.velocity)
    (bs1 bs2 : List Boid) (h : List.Forall₂ kinEq bs1 bs2) (w mf ms : ℝ) (r : ℝ) :
    self1.calculate_cohesion_force bs1 w mf ms r =
      self2.calculate_cohesion_force bs2 w mf ms r := by
  unfold Boid.calculate_cohesion_force Boid.seek
  rw [hp, hv]
  rw [foldl_kin_congr
    (fun (a : Vec2 × ℕ) p v =>
      if 0 < (self2.position - p).length ∧ (self2.position - p).length < r then
        (a.1 + p, a.2 + 1)
      else a) h (Vec2.zero, 0)]

theorem sepForcesList_congr (bs1 bs2 : List Boid) (h : List.Forall₂ kinEq bs1 bs2)
    (w mf : ℝ) : sepForcesList bs1 w mf = sepForcesList bs2 w mf := by
  unfold sepForcesList appSeparationForce
  have aux : ∀ {cs1 cs2 : List Boid}, List.Forall₂ kinEq cs1 cs2 →
      cs1.map (fun b => b.calculate_separation_force bs1 w mf 15) =
        cs2.map (fun b => b.calculate_separation_force bs2 w mf 15) := by
    intro cs1 cs2 hc
    induction hc with
    | nil => rfl
    | @cons c1 c2 t1 t2 hbb htl ih =>
      simp only [List.map_cons]
      rw [calculate_separation_force_congr c1 c2 hbb.1 bs1 bs2 h w mf 15, ih]
  exact aux h

theorem alignForcesList_congr (bs1 bs2 : List Boid) (h : List.Forall₂ kinEq bs1 bs2)
    (w ms mf : ℝ) : alignForcesList bs1 w ms mf = alignForcesList bs2 w ms mf := by
  unfold alignForcesList appAlignmentForce
  have aux : ∀ {cs1 cs2 : List Boid}, List.Forall₂ kinEq cs1 cs2 →
      cs1.map (fun b => b.calculate_alignment_force bs1 w ms mf 50) =
        cs2.map (fun b => b.calculate_alignment_force bs2 w ms mf 50) := by
    intro cs1 cs2 hc
    induction hc with
    | nil => rfl
    | @cons c1 c2 t1 t2 hbb htl ih =>
      simp only [List.map_cons]
      rw [calculate_alignment_force_congr c1 c2 hbb.1 hbb.2 bs1 bs2 h w ms mf 50, ih]
  exact aux h

theorem cohForcesList_congr (bs1 bs2 : List Boid) (h : List.Forall₂ kinEq bs1 bs2)
    (w mf ms : ℝ) : cohForcesList bs1 w mf ms = cohForcesList bs2 w mf ms := by
  unfold cohForcesList appCohesionForce
  have aux : ∀ {cs1 cs2 : List Boid}, List.Forall₂ kinEq cs1 cs2 →
      cs1.map (fun b => b.calculate_cohesion_force bs1 w mf ms 50) =
        cs2.map (fun b => b.calculate_cohesion_force bs2 w mf ms 50) := by
    intro cs1 cs2 hc
    induction hc with
    | nil => rfl
    | @cons c1 c2 t1 t2 hbb htl ih =>
      simp only [List.map_cons]
      rw [calculate_cohesion_force_congr c1 c2 hbb.1 hbb.2 bs1 bs2 h w mf ms 50, ih]
  exact aux h

theorem applyAll_map_kin (bs : List Boid) :
    ∀ (l1 l2 l3 : List Vec2), l1.length = bs.length → l2.length = bs.length →
      l3.length = bs.length →
      (applyAll bs l1 l2 l3).map (fun b => (b.position, b.velocity)) =
        bs.map (fun b => (b.position, b.velocity)) := by
  induction bs with
  | nil =>
    intro l1 l2 l3 h1 h2 h3
    rw [List.length_eq_zero.mp h1]
    cases l2 <;> cases l3 <;> rfl
  | cons b bs ih =>
    intro l1 l2 l3 h1 h2 h3
    cases l1 with
    | nil => simp at h1
    | cons f1 fs1 =>
      cases l2 with
      | nil => simp at h2
      | cons f2 fs2 =>
        cases l3 with
        | nil => simp at h3
        | cons f3 fs3 =>
          simp only [applyAll, List.map_cons]
          rw [ih fs1 fs2 fs3 (by simpa using h1) (by simpa using h2) (by simpa using h3)]
          rfl

/-- C5: `update_forces` is two-phase.  First, it never mutates any boid's
position or velocity.  Second, every per-boid force list (separation,
alignment, cohesion) is a function of the collection's positions and
velocities alone: two collections that agree pointwise on position and
velocity — however their accelerations (and colors) differ, in particular
whatever accelerations the apply phase would assign — produce identical
force lists, so the forces computed for boid `i` cannot see the
accelerations assigned to any boid `j` in the same pass. -/
theorem update_forces_two_phase :
    (∀ s : BoidsApp, (updateForces s).boids.map (fun b => (b.position, b.velocity)) =
      s.boids.map (fun b => (b.position, b.velocity))) ∧
    (∀ (bs1 bs2 : List Boid) (w ms mf : ℝ), List.Forall₂ kinEq bs1 bs2 →
      sepForcesList bs1 w mf = sepForcesList bs2 w mf ∧
      alignForcesList bs1 w ms mf = alignForcesList bs2 w ms mf ∧
      cohForcesList bs1 w mf ms = cohForcesList bs2 w mf ms) := by
  constructor
  · intro s
    simp only [updateForces]
    exact applyAll_map_kin s.boids _ _ _ (by simp [sepForcesList]) (by simp [alignForcesList])
      (by simp [cohForcesList])
  · intro bs1 bs2 w ms mf h
    exact ⟨sepForcesList_congr bs1 bs2 h w mf, alignForcesList_congr bs1 bs2 h w ms mf,
      cohForcesList_congr bs1 bs2 h w mf ms⟩

/-- The two boids of the C5 witness: same position and velocity, different
acceleration and color. -/
noncomputable def c5BoidA : Boid :=
  { velocity := ⟨3, 4⟩, position := ⟨1, 2⟩, acceleration := ⟨9, 9⟩, color := BColor.white }

/-- See `c5BoidA`. -/
noncomputable def c5BoidB : Boid :=
  { velocity := ⟨3, 4⟩, position := ⟨1, 2⟩, acceleration := Vec2.zero, color := BColor.red }

/-- Witness for the C5 theorem: two one-boid collections agreeing on
position and velocity but differing in acceleration and color yield the
same force lists. -/
theorem update_forces_two_phase_witness :
    List.Forall₂ kinEq [c5BoidA] [c5BoidB] ∧
    (sepForcesList [c5BoidA] 1 (1/2) = sepForcesList [c5BoidB] 1 (1/2) ∧
      alignForcesList [c5BoidA] 1 5 (1/2) = alignForcesList [c5BoidB] 1 5 (1/2) ∧
      cohForcesList [c5BoidA] 1 (1/2) 5 = cohForcesList [c5BoidB] 1 (1/2) 5) := by
  have h : List.Forall₂ kinEq [c5BoidA] [c5BoidB] :=
    List.Forall₂.cons ⟨rfl, rfl⟩ List.Forall₂.nil
  exact ⟨h, update_forces_two_phase.2 _ _ 1 5 (1/2) h⟩

/-- Scalar division with the division-by-zero hazard made explicit: `none`
exactly when the divisor is zero (the f32 NaN/infinity hazard). -/
noncomputable def divScalarChecked (v : Vec2) (c : ℝ) : Option Vec2 :=
  if c = 0 then none else some (v.divScalar c)

/-- `Vec2::normalized` with its internal division routed through
`divScalarChecked`: the guard `length ≤ 0` short-circuits before dividing. -/
noncomputable def normalizedChecked (v : Vec2) : Option Vec2 :=
  if v.length ≤ 0 then some v else divScalarChecked v v.length

theorem normalizedChecked_eq (v : Vec2) : normalizedChecked v = some v.normalized := by
  unfold normalizedChecked divScalarChecked Vec2.normalized
  by_cases h : v.length ≤ 0
  · rw [if_pos h, if_pos h]
  · rw [if_neg h, if_neg h, if_neg (fun h0 => h (le_of_eq h0))]

theorem foldl_bind_some {α β : Type} (g : β → α → Option β) (g' : β → α → β)
    (hg : ∀ b a, g b a = some (g' b a)) (l : List α) :
    ∀ b : β, l.foldl (fun acc a => acc.bind fun x => g x a) (some b) =
      some (l.foldl g' b) := by
  induction l with
  | nil => intro b; rfl
  | cons hd tl ih =>
    intro b
    simp only [List.foldl_cons]
    have h1 : (some b).bind (fun x => g x hd) = some (g' b hd) := hg b hd
    rw [h1]
    exact ih (g' b hd)

/-- Effectful map over a list in the `Option` monad. -/
noncomputable def mapChecked {α β : Type} (F : α → Option β) : List α → Option (List β)
  | [] => some []
  | a :: l => (F a).bind fun b => (mapChecked F l).map fun bs => b :: bs

theorem mapChecked_eq_some {α β : Type} (F : α → Option β) (f : α → β)
    (hF : ∀ a, F a = some (f a)) (l : List α) : mapChecked F l = some (l.map f) := by
  induction l with
  | nil => rfl
  | cons a l ih =>
    simp only [mapChecked, hF a, Option.some_bind, ih, Option.map_some', List.map_cons]

/-- `calculate_separation_force` with every division hazard made explicit. -/
noncomputable def calculate_separation_force_checked (self : Boid) (boids : List Boid)
    (separation_weight max_force neighbor_radius : ℝ) : Option Vec2 :=
  (boids.foldl
    (fun (acc : Option (Vec2 × ℕ)) other =>
      acc.bind fun p =>
        let distance := (self.position - other.position).length
        if 0 < distance ∧ distance < neighbor_radius then
          (normalizedChecked (self.position - other.position)).map fun u => (p.1 + u, p.2 + 1)
        else some p)
    (some (Vec2.zero, 0))).bind fun acc =>
  (if acc.2 > 0 then divScalarChecked acc.1 (acc.2 : ℝ) else some acc.1).bind
    fun steering_force =>
      if steering_force.length > max_force then
        (normalizedChecked steering_force).map fun u =>
          (u.smul max_force).smul separation_weight
      else some (steering_force.smul separation_weight)

theorem sep_checked_tail (p : Vec2 × ℕ) (w mf : ℝ) :
    ((if p.2 > 0 then divScalarChecked p.1 (p.2 : ℝ) else some p.1).bind
      fun steering_force =>
        if steering_force.length > mf then
          (normalizedChecked steering_force).map fun u => (u.smul mf).smul w
        else some (steering_force.smul w)) =
    some (
      let steering_force := if p.2 > 0 then p.1.divScalar (p.2 : ℝ) else p.1
      if steering_force.length > mf then (steering_force.normalized.smul mf).smul w
      else steering_force.smul w) := by
  by_cases hp : p.2 > 0
  · have hne : (p.2 : ℝ) ≠ 0 := Nat.cast_ne_zero.mpr (Nat.pos_iff_ne_zero.mp hp)
    simp only [if_pos hp, divScalarChecked, if_neg hne, Option.some_bind]
    by_cases hf : (p.1.divScalar (p.2 : ℝ)).length > mf
    · simp only [if_pos hf, normalizedChecked_eq, Option.map_some']
    · simp only [if_neg hf]
  · simp only [if_neg hp, Option.some_bind]
    by_cases hf : p.1.length > mf
    · simp only [if_pos hf, normalizedChecked_eq, Option.map_some']
    · simp only [if_neg hf]

theorem sep_checked_eq (self : Boid) (boids : List Boid) (w mf r : ℝ) :
    calculate_separation_force_checked self boids w mf r =
      some (self.calculate_separation_force boids w mf r) := by
  unfold calculate_separation_force_checked Boid.calculate_separation_force
  have hg : ∀ (p : Vec2 × ℕ) (other : Boid),
      (let distance := (self.position - other.position).length
       if 0 < distance ∧ distance < r then
         (normalizedChecked (self.position - other.position)).map fun u => (p.1 + u, p.2 + 1)
       else some p) =
      some (
        let distance := (self.position - other.position).length
        if 0 < distance ∧ distance < r then
          (p.1 + (self.position - other.position).normalized, p.2 + 1)
        else p) := by
    intro p other
    by_cases hc : 0 < (self.position - other.position).length ∧
        (self.position - other.position).length < r
    · simp only [if_pos hc, normalizedChecked_eq, Option.map_some']
    · simp only [if_neg hc]
  rw [foldl_bind_some _ _ hg boids (Vec2.zero, 0), Option.some_bind]
  exact sep_checked_tail _ w mf

/-- `calculate_alignment_force` with every division hazard made explicit
(the loop itself performs no division). -/
noncomputable def calculate_alignment_force_checked (self : Boid) (boids : List Boid)
    (alignment_weight max_speed max_force neighbor_radius : ℝ) : Option Vec2 :=
  (boids.foldl
    (fun (acc : Option (Vec2 × ℕ)) other =>
      acc.bind fun p =>
        let distance := (self.position - other.position).length
        if 0 < distance ∧ distance < neighbor_radius then
          some (p.1 + other.velocity, p.2 + 1)
        else some p)
    (some (Vec2.zero, 0))).bind fun acc =>
  if acc.2 > 0 then
    (divScalarChecked acc.1 (acc.2 : ℝ)).bind fun avg =>
    (normalizedChecked avg).bind fun u =>
    let sum := u.smul max_speed
    let steer := sum - self.velocity
    if steer.length > max_force then
      (normalizedChecked steer).map fun u2 => (u2.smul max_force).smul alignment_weight
    else some (steer.smul alignment_weight)
  else some Vec2.zero

theorem align_checked_eq (self : Boid) (boids : List Boid) (w ms mf r : ℝ) :
    calculate_alignment_force_checked self boids w ms mf r =
      some (self.calculate_alignment_force boids w ms mf r) := by
  unfold calculate_alignment_force_checked Boid.calculate_alignment_force
  have hg : ∀ (p : Vec2 × ℕ) (other : Boid),
      (let distance := (self.position - other.position).length
       if 0 < distance ∧ distance < r then
         some ((p.1 + other.velocity, p.2 + 1) : Vec2 × ℕ)
       else some p) =
      some (
        let distance := (self.position - other.position).length
        if 0 < distance ∧ distance < r then
          (p.1 + other.velocity, p.2 + 1)
        else p) := by
    intro p other
    by_cases hc : 0 < (self.position - other.position).length ∧
        (self.position - other.position).length < r
    · simp only [if_pos hc]
    · simp only [if_neg hc]
  rw [foldl_bind_some _ _ hg boids (Vec2.zero, 0), Option.some_bind]
  set acc := boids.foldl
    (fun (p : Vec2 × ℕ) other =>
      let distance := (self.position - other.position).length
      if 0 < distance ∧ distance < r then
        (p.1 + other.velocity, p.2 + 1)
      else p)
    (Vec2.zero, 0) with hacc
  by_cases hp : acc.2 > 0
  · have hne : ((acc.2 : ℕ) : ℝ) ≠ 0 := Nat.cast_ne_zero.mpr (Nat.pos_iff_ne_zero.mp hp)
    simp only [if_pos hp, divScalarChecked, if_neg hne, Option.some_bind,
      normalizedChecked_eq]
    by_cases hf : (((acc.1.divScalar (acc.2 : ℝ)).normalized).smul ms - self.velocity).length > mf
    · simp only [if_pos hf, normalizedChecked_eq, Option.map_some']
    · simp only [if_neg hf]
  · simp only [if_neg hp]

/-- `Boid::seek` with its two normalizations routed through
`normalizedChecked`. -/
noncomputable def seek_checked (self : Boid) (target_pos : Vec2)
    (max_speed max_force : ℝ) : Option Vec2 :=
  (normalizedChecked (target_pos - self.position)).bind fun u =>
  let desired := u.smul max_speed
  let steer := desired - self.velocity
  if steer.length > max_force then (normalizedChecked steer).map fun u2 => u2.smul max_force
  else some steer

theorem seek_checked_eq (self : Boid) (t : Vec2) (ms mf : ℝ) :
    seek_checked self t ms mf = some (self.seek t ms mf) := by
  unfold seek_checked Boid.seek
  rw [normalizedChecked_eq, Option.some_bind]
  by_cases hf : (((t - self.position).normalized).smul ms - self.velocity).length > mf
  · simp only [if_pos hf, normalizedChecked_eq, Option.map_some']
  · simp only [if_neg hf]

/-- `calculate_cohesion_force` with every division hazard made explicit. -/
noncomputable def calculate_cohesion_force_checked (self : Boid) (boids : List Boid)
    (cohesion_weight max_force max_speed neighbor_radius : ℝ) : Option Vec2 :=
  (boids.foldl
    (fun (acc : Option (Vec2 × ℕ)) other =>
      acc.bind fun p =>
        let distance := (self.position - other.position).length
        if 0 < distance ∧ distance < neighbor_radius then
          some (p.1 + other.position, p.2 + 1)
        else some p)
    (some (Vec2.zero, 0))).bind fun acc =>
  if acc.2 > 0 then
    (divScalarChecked acc.1 (acc.2 : ℝ)).bind fun avg =>
    (seek_checked self avg max_speed max_force).map fun sv => sv.smul cohesion_weight
  else some Vec2.zero

theorem coh_checked_eq (self : Boid) (boids : List Boid) (w mf ms r : ℝ) :
    calculate_cohesion_force_checked self boids w mf ms r =
      some (self.calculate_cohesion_force boids w mf ms r) := by
  unfold calculate_cohesion_force_checked Boid.calculate_cohesion_force
  have hg : ∀ (p : Vec2 × ℕ) (other : Boid),
      (let distance := (self.position - other.position).length
       if 0 < distance ∧ distance < r then
         some ((p.1 + other.position, p.2 + 1) : Vec2 × ℕ)
       else some p) =
      some (
        let distance := (self.position - other.position).length
        if 0 < distance ∧ distance < r then
          (p.1 + other.position, p.2 + 1)
        else p) := by
    intro p other
    by_cases hc : 0 < (self.position - other.position).length ∧
        (self.position - other.position).length < r
    · simp only [if_pos hc]
    · simp only [if_neg hc]
  rw [foldl_bind_some _ _ hg boids (Vec2.zero, 0), Option.some_bind]
  set acc := boids.foldl
    (fun (p : Vec2 × ℕ) other =>
      let distance := (self.position - other.position).length
      if 0 < distance ∧ distance < r then
        (p.1 + other.position, p.2 + 1)
      else p)
    (Vec2.zero, 0) with hacc
  by_cases hp : acc.2 > 0
  · have hne : ((acc.2 : ℕ) : ℝ) ≠ 0 := Nat.cast_ne_zero.mpr (Nat.pos_iff_ne_zero.mp hp)
    simp only [if_pos hp, divScalarChecked, if_neg hne, Option.some_bind,
      seek_checked_eq, Option.map_some']
  · simp only [if_neg hp]

/-- `calculate_avoidance_force` with its normalizations routed through
`normalizedChecked` (it performs no count division). -/
noncomputable def calculate_avoidance_force_checked (self : Boid) (predator_position : Vec2)
    (avoidance_weight max_force avoidance_radius : ℝ) : Option Vec2 :=
  let distance := (self.position - predator_position).length
  if distance < avoidance_radius then
    (normalizedChecked (self.position - predator_position)).bind fun steer =>
    if steer.length > max_force then
      (normalizedChecked steer).map fun u => (u.smul max_force).smul avoidance_weight
    else some (steer.smul avoidance_weight)
  else some Vec2.zero

theorem avoid_checked_eq (self : Boid) (pred : Vec2) (w mf r : ℝ) :
    calculate_avoidance_force_checked self pred w mf r =
      some (self.calculate_avoidance_force pred w mf r) := by
  unfold calculate_avoidance_force_checked Boid.calculate_avoidance_force
  by_cases hd : (self.position - pred).length < r
  · simp only [if_pos hd, normalizedChecked_eq, Option.some_bind]
    by_cases hf : ((self.position - pred).normalized).length > mf
    · simp only [if_pos hf, normalizedChecked_eq, Option.map_some']
    · simp only [if_neg hf]
  · simp only [if_neg hd]

/-- `apply_forces` with its normalization routed through
`normalizedChecked` (the clamp guard precedes the division by the length). -/
noncomputable def apply_forces_checked (b : Boid) (max_speed : ℝ) : Option Boid :=
  let v1 := b.velocity + b.acceleration
  (if v1.length > max_speed then (normalizedChecked v1).map fun u => u.smul max_speed
   else some v1).map fun v2 =>
    { b with velocity := v2, acceleration := Vec2.zero, position := b.position + v2 }

theorem apply_forces_checked_eq (b : Boid) (ms : ℝ) :
    apply_forces_checked b ms = some (b.apply_forces ms) := by
  unfold apply_forces_checked Boid.apply_forces
  by_cases hf : (b.velocity + b.acceleration).length > ms
  · simp only [if_pos hf, normalizedChecked_eq, Option.map_some']
  · simp only [if_neg hf, Option.map_some']

/-- `rand`'s `gen_range(low..high)` with its empty-range panic explicit:
the rand crate asserts `low < high` for float ranges and panics otherwise,
so the result is `none` exactly when the range is empty.  The value that
would be sampled is supplied as the `sample` argument (randomness is
external nondeterminism). -/
noncomputable def genRangeChecked (low high sample : ℝ) : Option ℝ :=
  if low < high then some sample else none

/-- The resize block with both of its panic hazards explicit:
`remove(len - 1)` on an empty vector would panic (`none`; the branch guard
`len > num_boids` makes the vector provably nonempty), and the insertion
branch samples `gen_range(-400..400)`, `gen_range(-300..300)` for the
position and `gen_range(-max_speed..max_speed)` twice for the velocity
(`app.rs` lines 87-94), each of which panics on an empty range — the
velocity ranges are empty whenever `max_speed ≤ 0`.  The four values that
would be sampled are supplied as the `px py vx vy` arguments. -/
noncomputable def resizeStepChecked (boids : List Boid) (num_boids : ℕ)
    (px py vx vy max_speed : ℝ) : Option (List Boid) :=
  if boids.length > num_boids then
    if boids.isEmpty then none else some boids.dropLast
  else if boids.length < num_boids then
    (genRangeChecked (-400) 400 px).bind fun x =>
    (genRangeChecked (-300) 300 py).bind fun y =>
    (genRangeChecked (-max_speed) max_speed vx).bind fun rand_x_vel =>
    (genRangeChecked (-max_speed) max_speed vy).bind fun rand_y_vel =>
    some (boids ++ [Boid.new ⟨x, y⟩ ⟨rand_x_vel, rand_y_vel⟩])
  else some boids

theorem resizeStepChecked_eq (boids : List Boid) (num : ℕ) (px py vx vy ms : ℝ)
    (hms : 0 < ms) :
    resizeStepChecked boids num px py vx vy ms =
      some (resizeStep boids num (Boid.new ⟨px, py⟩ ⟨vx, vy⟩)) := by
  unfold resizeStepChecked resizeStep genRangeChecked
  by_cases hgt : boids.length > num
  · have hne : boids ≠ [] := by
      intro h0
      rw [h0] at hgt
      simp at hgt
    have hempty : boids.isEmpty = false := by
      simpa [List.isEmpty_iff] using hne
    rw [if_pos hgt, if_pos hgt, hempty]
    rfl
  · rw [if_neg hgt, if_neg hgt]
    by_cases hlt : boids.length < num
    · have h1 : (-400 : ℝ) < 400 := by norm_num
      have h2 : (-300 : ℝ) < 300 := by norm_num
      have h3 : -ms < ms := by linarith
      simp only [if_pos hlt, if_pos h1, if_pos h2, if_pos h3, Option.some_bind]
    · rw [if_neg hlt, if_neg hlt]

/-- When no insertion is pending (count at least the target), the resize
step is panic-free for every `max_speed`. -/
theorem resizeStepChecked_eq_of_no_insert (boids : List Boid) (num : ℕ)
    (px py vx vy ms : ℝ) (h : num ≤ boids.length) :
    resizeStepChecked boids num px py vx vy ms =
      some (resizeStep boids num (Boid.new ⟨px, py⟩ ⟨vx, vy⟩)) := by
  unfold resizeStepChecked resizeStep
  by_cases hgt : boids.length > num
  · have hne : boids ≠ [] := by
      intro h0
      rw [h0] at hgt
      simp at hgt
    have hempty : boids.isEmpty = false := by
      simpa [List.isEmpty_iff] using hne
    rw [if_pos hgt, if_pos hgt, hempty]
    rfl
  · have hlt : ¬ boids.length < num := by omega
    rw [if_neg hgt, if_neg hgt, if_neg hlt, if_neg hlt]

/-- With an insertion pending and `max_speed ≤ 0`, the velocity range
`-max_speed..max_speed` is empty and `gen_range` panics: the resize step
surfaces `none`. -/
theorem resizeStepChecked_none (boids : List Boid) (num : ℕ) (px py vx vy ms : ℝ)
    (hlt : boids.length < num) (hms : ms ≤ 0) :
    resizeStepChecked boids num px py vx vy ms = none := by
  unfold resizeStepChecked genRangeChecked
  have hgt : ¬ boids.length > num := by omega
  have h1 : (-400 : ℝ) < 400 := by norm_num
  have h2 : (-300 : ℝ) < 300 := by norm_num
  have h3 : ¬ (-ms < ms) := by
    intro h0
    linarith
  rw [if_neg hgt, if_pos hlt, if_pos h1, Option.some_bind, if_pos h2, Option.some_bind,
    if_neg h3]
  rfl

/-- `update_forces` with every numeric hazard explicit: the three force
lists in the `Option` monad, then the (hazard-free) apply phase. -/
noncomputable def updateForcesChecked (s : BoidsApp) : Option BoidsApp :=
  (mapChecked (fun b => calculate_separation_force_checked b s.boids
      s.separation_weight s.max_force 15) s.boids).bind fun sf =>
  (mapChecked (fun b => calculate_alignment_force_checked b s.boids
      s.alignment_weight s.max_speed s.max_force 50) s.boids).bind fun af =>
  (mapChecked (fun b => calculate_cohesion_force_checked b s.boids
      s.cohesion_weight s.max_force s.max_speed 50) s.boids).bind fun cf =>
  some { s with boids := applyAll s.boids sf af cf }

theorem updateForcesChecked_eq (s : BoidsApp) :
    updateForcesChecked s = some (updateForces s) := by
  unfold updateForcesChecked updateForces
  rw [mapChecked_eq_some _ (fun b => b.calculate_separation_force s.boids
        s.separation_weight s.max_force 15)
      (fun b => sep_checked_eq b s.boids s.separation_weight s.max_force 15) s.boids,
    Option.some_bind,
    mapChecked_eq_some _ (fun b => b.calculate_alignment_force s.boids
        s.alignment_weight s.max_speed s.max_force 50)
      (fun b => align_checked_eq b s.boids s.alignment_weight s.max_speed s.max_force 50)
      s.boids,
    Option.some_bind,
    mapChecked_eq_some _ (fun b => b.calculate_cohesion_force s.boids
        s.cohesion_weight s.max_force s.max_speed 50)
      (fun b => coh_checked_eq b s.boids s.cohesion_weight s.max_force s.max_speed 50)
      s.boids,
    Option.some_bind]
  rfl

/-- `update_boids_position` with the integration hazards explicit (the wrap
step is pure comparisons and assignments, no hazard). -/
noncomputable def updateBoidsPositionChecked (s : BoidsApp) (dt : ℝ) : Option BoidsApp :=
  (mapChecked (fun b => (apply_forces_checked b s.max_speed).map
      fun b2 => b2.wrap (-400) 400 (-300) 300) s.boids).map
    fun bs => { s with boids := bs }

theorem updateBoidsPositionChecked_eq (s : BoidsApp) (dt : ℝ) :
    updateBoidsPositionChecked s dt = some (updateBoidsPosition s dt) := by
  unfold updateBoidsPositionChecked updateBoidsPosition
  rw [mapChecked_eq_some _ (fun b => (b.apply_forces s.max_speed).wrap (-400) 400 (-300) 300)
      (fun b => by rw [apply_forces_checked_eq b s.max_speed, Option.map_some']) s.boids,
    Option.map_some']

/-- The full per-frame update with every hazard explicit, the random
sampling of the insertion branch included (`px py vx vy` are the values
the four `gen_range` calls would return). -/
noncomputable def updateBoidsChecked (s : BoidsApp) (dt px py vx vy : ℝ) :
    Option BoidsApp :=
  (resizeStepChecked s.boids s.num_boids px py vx vy s.max_speed).bind fun bs =>
  (updateForcesChecked { s with boids := bs }).bind fun s1 =>
  updateBoidsPositionChecked s1 dt

theorem updateBoidsChecked_eq (s : BoidsApp) (dt px py vx vy : ℝ)
    (hms : 0 < s.max_speed) :
    updateBoidsChecked s dt px py vx vy =
      some (updateBoids s dt (Boid.new ⟨px, py⟩ ⟨vx, vy⟩)) := by
  unfold updateBoidsChecked updateBoids
  rw [resizeStepChecked_eq s.boids s.num_boids px py vx vy s.max_speed hms,
    Option.some_bind, updateForcesChecked_eq, Option.some_bind,
    updateBoidsPositionChecked_eq]

theorem updateBoidsChecked_eq_of_no_insert (s : BoidsApp) (dt px py vx vy : ℝ)
    (h : s.num_boids ≤ s.boids.length) :
    updateBoidsChecked s dt px py vx vy =
      some (updateBoids s dt (Boid.new ⟨px, py⟩ ⟨vx, vy⟩)) := by
  unfold updateBoidsChecked updateBoids
  rw [resizeStepChecked_eq_of_no_insert s.boids s.num_boids px py vx vy s.max_speed h,
    Option.some_bind, updateForcesChecked_eq, Option.some_bind,
    updateBoidsPositionChecked_eq]

theorem updateBoidsChecked_none (s : BoidsApp) (dt px py vx vy : ℝ)
    (hlt : s.boids.length < s.num_boids) (hms : s.max_speed ≤ 0) :
    updateBoidsChecked s dt px py vx vy = none := by
  unfold updateBoidsChecked
  rw [resizeStepChecked_none s.boids s.num_boids px py vx vy s.max_speed hlt hms]
  rfl

/-- The configuration on which the per-frame update panics: an insertion is
pending (no boids, target one) and `max_speed = 0`, so the sampled velocity
range `-max_speed..max_speed` is empty. -/
noncomputable def c7PanicApp : BoidsApp :=
  { boids := []
    num_boids := 1
    max_speed := 0
    max_force := 1/2
    separation_weight := 1
    alignment_weight := 1
    cohesion_weight := 1 }

/-- C7 (counterexample): the per-frame update is not total for arbitrary
`max_speed`.  With no boids, a target population of one and
`max_speed = 0`, the insertion branch's `rng.gen_range(-max_speed..max_speed)`
(`app.rs` lines 92-93) is called on an empty range, which panics in the
rand crate — the instrumented update surfaces `none` instead of a result,
whatever values the sampler would have produced. -/
theorem engine_total_counterexample :
    c7PanicApp.boids.length < c7PanicApp.num_boids ∧
    c7PanicApp.max_speed ≤ 0 ∧
    updateBoidsChecked c7PanicApp 0 0 0 0 0 = none := by
  refine ⟨by simp [c7PanicApp], by norm_num [c7PanicApp], ?_⟩
  exact updateBoidsChecked_none c7PanicApp 0 0 0 0 0 (by simp [c7PanicApp])
    (by norm_num [c7PanicApp])

/-- C7 (amended): every engine operation except the insertion branch's
random sampling is total for arbitrary parameter values (zero or negative
weights, radii, `max_speed`, `max_force` included).  Each operation's
`Option`-instrumented mirror — in which dividing by zero, a zero-count
average, `Vec::remove` on an empty vector, an unguarded zero-length
normalization, and an empty-range `gen_range` would all surface as `none` —
returns `some` of exactly the plain result: unconditionally for the four
force calculations and `apply_forces` (and `wrap`, which is pure
comparisons and assignments), with the neighbor-count division guarded and
short-circuited; and for the full per-frame update whenever
`0 < max_speed`, or unconditionally when no insertion is pending (count at
least the target) — the sole panic path being the empty velocity range
`-max_speed..max_speed` when `max_speed ≤ 0`.  Normalizing the zero-length
vector yields the defined zero vector, not NaN or infinity. -/
theorem engine_ops_total_amended :
    (∀ (self : Boid) (boids : List Boid) (w mf r : ℝ),
      calculate_separation_force_checked self boids w mf r =
        some (self.calculate_separation_force boids w mf r)) ∧
    (∀ (self : Boid) (boids : List Boid) (w ms mf r : ℝ),
      calculate_alignment_force_checked self boids w ms mf r =
        some (self.calculate_alignment_force boids w ms mf r)) ∧
    (∀ (self : Boid) (boids : List Boid) (w mf ms r : ℝ),
      calculate_cohesion_force_checked self boids w mf ms r =
        some (self.calculate_cohesion_force boids w mf ms r)) ∧
    (∀ (self : Boid) (pred : Vec2) (w mf r : ℝ),
      calculate_avoidance_force_checked self pred w mf r =
        some (self.calculate_avoidance_force pred w mf r)) ∧
    (∀ (b : Boid) (ms : ℝ), apply_forces_checked b ms = some (b.apply_forces ms)) ∧
    (∀ (s : BoidsApp) (dt px py vx vy : ℝ), 0 < s.max_speed →
      updateBoidsChecked s dt px py vx vy =
        some (updateBoids s dt (Boid.new ⟨px, py⟩ ⟨vx, vy⟩))) ∧
    (∀ (s : BoidsApp) (dt px py vx vy : ℝ), s.num_boids ≤ s.boids.length →
      updateBoidsChecked s dt px py vx vy =
        some (updateBoids s dt (Boid.new ⟨px, py⟩ ⟨vx, vy⟩))) ∧
    Vec2.zero.normalized = Vec2.zero :=
  ⟨sep_checked_eq, align_checked_eq, coh_checked_eq, avoid_checked_eq,
    apply_forces_checked_eq,
    fun s dt px py vx vy hms => updateBoidsChecked_eq s dt px py vx vy hms,
    fun s dt px py vx vy h => updateBoidsChecked_eq_of_no_insert s dt px py vx vy h,
    Vec2.normalized_zero⟩

/-- Witness for the amended C7 theorem: with the default `max_speed = 5 > 0`
the full per-frame update is panic-free on a concrete state. -/
theorem engine_ops_total_amended_witness :
    0 < resizeDemoApp.max_speed ∧
    updateBoidsChecked resizeDemoApp 0 0 0 0 0 =
      some (updateBoids resizeDemoApp 0 (Boid.new ⟨0, 0⟩ ⟨0, 0⟩)) :=
  ⟨by norm_num [resizeDemoApp],
    engine_ops_total_amended.2.2.2.2.2.1 resizeDemoApp 0 0 0 0 0
      (by norm_num [resizeDemoApp])⟩
